import Mathlib

/-!
Verification development for the IHG pet-friendly hotel scraping pipeline
(`ihg_pipeline.py`, `testing.py`).

The browser (Selenium/undetected-chromedriver) is an external collaborator:
every DOM probe result is a parameter of the embedded functions.  All pure
record-manipulation logic (merge-by-key persistence, URL code extraction,
phone regex search, record construction/normalization, JSON serialization,
city-link dedup/filter) is embedded faithfully from the Python source.
-/

set_option maxHeartbeats 1000000

namespace IHG

/-- Final flat hotel record as persisted: the fixed field schema `FIELDS`
of `ihg_pipeline.py` (all values are strings or null at persistence time;
`last_updated` is an ISO timestamp string supplied externally by `now_iso`). -/
structure HotelRecord where
  hotel_code : Option String
  hotel_name : Option String
  address : Option String
  phone : Option String
  rating : Option String
  description : Option String
  card_price : Option String
  overview_table_json : Option String
  pets_json : Option String
  parking_json : Option String
  amenities_json : Option String
  nearby_json : Option String
  airport_json : Option String
  is_pet_friendly : Option String
  last_updated : Option String
deriving DecidableEq

/-- An all-null record, convenient for building concrete records. -/
def emptyRecord : HotelRecord :=
  ⟨none, none, none, none, none, none, none, none, none, none, none, none, none, none, none⟩

/-- Identity key of a record: the `(hotel_code, hotel_name)` tuple used by
`load_existing_output` and `append_or_merge`. -/
abbrev HKey := Option String × Option String

/-- Identity key of a record, i.e. `(h.get("hotel_code"), h.get("hotel_name"))`. -/
def keyOf (r : HotelRecord) : HKey := (r.hotel_code, r.hotel_name)

/-- Model of a Python `dict` keyed by `HKey`: an insertion-ordered association
list (Python dicts preserve insertion order; updating an existing key keeps
its position). -/
abbrev HDict := List (HKey × HotelRecord)

/-- Model of `key in d` for a Python dict. -/
def dictMem (m : HDict) (k : HKey) : Bool := m.any (fun p => decide (p.1 = k))

/-- Model of `d[k] = v` for a Python dict: replace (the first entry with that
key, which is the only one when keys are unique) in place if the key is
present, else append at the end. -/
def dictSet : HDict → HKey → HotelRecord → HDict
  | [], k, v => [(k, v)]
  | p :: m, k, v => if p.1 = k then (k, v) :: m else p :: dictSet m k v

/-- Model of `d.get(k)` for a Python dict. -/
def dictLookup (m : HDict) (k : HKey) : Option HotelRecord :=
  (m.find? (fun p => decide (p.1 = k))).map (fun p => p.2)

/-- Model of `list(d.values())` for a Python dict. -/
def dictValues (m : HDict) : List HotelRecord := m.map (fun p => p.2)

/-- Well-formedness of the dict model: keys are pairwise distinct
(automatic for a real Python dict). -/
def nodupKeys (m : HDict) : Prop := (m.map (fun p => p.1)).Nodup

instance (m : HDict) : Decidable (nodupKeys m) := by
  unfold nodupKeys
  infer_instance

/-- The `OVERWRITE` configuration constant of `ihg_pipeline.py` (line 39). -/
def OVERWRITE : Bool := false

/-- Loop body of `append_or_merge`: skip the new record `h` if its key is
already present and overwrite-mode is off, else insert it.  The Python code
reads the global `OVERWRITE`; it is passed here as the parameter `ow`. -/
def mergeStep (ow : Bool) (rm : HDict) (h : HotelRecord) : HDict :=
  if dictMem rm (keyOf h) && !ow then rm else dictSet rm (keyOf h) h

/-- The dict built by `append_or_merge` before taking `.values()`:
`result_map = dict(existing_map)` then the insertion loop over `hotels`. -/
def mergeMap (ow : Bool) (hotels : List HotelRecord) (existing : HDict) : HDict :=
  hotels.foldl (mergeStep ow) existing

/-- `append_or_merge(hotels, existing_map)` from `ihg_pipeline.py`
(lines 783-791): returns `list(result_map.values())`. -/
def append_or_merge (ow : Bool) (hotels : List HotelRecord) (existing : HDict) : List HotelRecord :=
  dictValues (mergeMap ow hotels existing)

/-- Model of the dict comprehension in `main` (line 836):
`{(h.get('hotel_code'), h.get('hotel_name')): h for h in all_hotels}`. -/
def reindexBy (l : List HotelRecord) : HDict :=
  l.foldl (fun m h => dictSet m (keyOf h) h) []

/-! Basic lemmas about the Python-dict model. -/

theorem dictMem_nil (k : HKey) : dictMem [] k = false := rfl

theorem dictMem_cons (p : HKey × HotelRecord) (m : HDict) (k : HKey) :
    dictMem (p :: m) k = (decide (p.1 = k) || dictMem m k) := by
  simp [dictMem, List.any_cons]

theorem dictMem_iff (m : HDict) (k : HKey) :
    dictMem m k = true ↔ k ∈ m.map (fun p => p.1) := by
  induction m with
  | nil => simp [dictMem]
  | cons p m ih =>
    rw [dictMem_cons]
    simp only [Bool.or_eq_true, decide_eq_true_eq, List.map_cons, List.mem_cons, ih]
    constructor
    · rintro (h | h)
      · exact Or.inl h.symm
      · exact Or.inr h
    · rintro (h | h)
      · exact Or.inl h.symm
      · exact Or.inr h

theorem dictMem_eq_false_iff (m : HDict) (k : HKey) :
    dictMem m k = false ↔ k ∉ m.map (fun p => p.1) := by
  rw [← dictMem_iff]
  cases dictMem m k <;> simp

theorem dictLookup_nil (k : HKey) : dictLookup [] k = none := rfl

theorem dictLookup_cons (p : HKey × HotelRecord) (m : HDict) (k : HKey) :
    dictLookup (p :: m) k = if p.1 = k then some p.2 else dictLookup m k := by
  by_cases h : p.1 = k
  · simp [dictLookup, List.find?_cons_of_pos, h]
  · simp [dictLookup, List.find?_cons_of_neg, h]

theorem dictLookup_isSome_of_mem (m : HDict) (k : HKey) (h : dictMem m k = true) :
    ∃ v, dictLookup m k = some v := by
  induction m with
  | nil => simp [dictMem] at h
  | cons p m ih =>
    rw [dictMem_cons] at h
    rw [dictLookup_cons]
    by_cases hp : p.1 = k
    · exact ⟨p.2, by simp [hp]⟩
    · simp [hp] at h ⊢
      exact ih h

theorem dictMem_of_lookup_some (m : HDict) (k : HKey) (v : HotelRecord)
    (h : dictLookup m k = some v) : dictMem m k = true := by
  induction m with
  | nil => simp [dictLookup] at h
  | cons p m ih =>
    rw [dictLookup_cons] at h
    rw [dictMem_cons]
    by_cases hp : p.1 = k
    · simp [hp]
    · simp [hp] at h ⊢
      exact ih h

theorem mem_values_of_lookup (m : HDict) (k : HKey) (v : HotelRecord)
    (h : dictLookup m k = some v) : v ∈ dictValues m := by
  induction m with
  | nil => simp [dictLookup] at h
  | cons p m ih =>
    rw [dictLookup_cons] at h
    by_cases hp : p.1 = k
    · simp [hp] at h
      simp [dictValues, h]
    · simp [hp] at h
      simp [dictValues] at ih ⊢
      exact Or.inr (ih h)

theorem keys_dictSet (m : HDict) (k : HKey) (v : HotelRecord) :
    (dictSet m k v).map (fun p => p.1) =
      if dictMem m k then m.map (fun p => p.1) else m.map (fun p => p.1) ++ [k] := by
  induction m with
  | nil => simp [dictSet, dictMem]
  | cons p m ih =>
    rw [dictMem_cons]
    by_cases hp : p.1 = k
    · simp [dictSet, hp]
    · simp only [dictSet, if_neg hp, List.map_cons, ih, decide_eq_true_eq]
      rw [decide_eq_false hp]
      cases h : dictMem m k <;> simp

theorem nodupKeys_dictSet (m : HDict) (k : HKey) (v : HotelRecord)
    (h : nodupKeys m) : nodupKeys (dictSet m k v) := by
  unfold nodupKeys at h ⊢
  rw [keys_dictSet]
  by_cases hm : dictMem m k = true
  · rw [if_pos hm]
    exact h
  · have hm' : dictMem m k = false := by simpa using hm
    rw [if_neg hm]
    refine List.Nodup.append h (List.nodup_singleton k) ?_
    intro x hx hx'
    simp only [List.mem_singleton] at hx'
    rw [hx'] at hx
    exact (dictMem_eq_false_iff m k).mp hm' hx

theorem dictLookup_dictSet_self (m : HDict) (k : HKey) (v : HotelRecord) :
    dictLookup (dictSet m k v) k = some v := by
  induction m with
  | nil => simp [dictSet, dictLookup_cons]
  | cons p m ih =>
    by_cases hp : p.1 = k
    · simp [dictSet, hp, dictLookup_cons]
    · simp [dictSet, hp, dictLookup_cons, ih]

theorem dictLookup_dictSet_ne (m : HDict) (k k' : HKey) (v : HotelRecord)
    (h : k' ≠ k) : dictLookup (dictSet m k v) k' = dictLookup m k' := by
  have hne : ¬ k = k' := fun hh => h hh.symm
  induction m with
  | nil =>
    show dictLookup [(k, v)] k' = dictLookup [] k'
    rw [dictLookup_cons, dictLookup_nil, if_neg hne]
  | cons p m ih =>
    by_cases hp : p.1 = k
    · simp [dictSet, hp, dictLookup_cons, hne]
    · simp only [dictSet, if_neg hp, dictLookup_cons, ih]

theorem dictMem_dictSet_iff (m : HDict) (k k' : HKey) (v : HotelRecord) :
    dictMem (dictSet m k v) k' = true ↔ k' = k ∨ dictMem m k' = true := by
  by_cases hm : dictMem m k = true
  · rw [dictMem_iff, keys_dictSet, if_pos hm, ← dictMem_iff]
    constructor
    · exact Or.inr
    · rintro (h | h)
      · subst h
        exact hm
      · exact h
  · rw [dictMem_iff, keys_dictSet, if_neg hm]
    simp only [List.mem_append, List.mem_singleton, ← dictMem_iff]
    tauto

theorem dictMem_dictSet_of_mem (m : HDict) (k k' : HKey) (v : HotelRecord)
    (h : dictMem m k' = true) : dictMem (dictSet m k v) k' = true :=
  (dictMem_dictSet_iff m k k' v).mpr (Or.inr h)

theorem dictMem_dictSet_self (m : HDict) (k : HKey) (v : HotelRecord) :
    dictMem (dictSet m k v) k = true :=
  (dictMem_dictSet_iff m k k v).mpr (Or.inl rfl)

theorem mem_dictSet (m : HDict) (k : HKey) (v : HotelRecord) (q : HKey × HotelRecord)
    (h : q ∈ dictSet m k v) : q ∈ m ∨ q = (k, v) := by
  induction m with
  | nil => simp [dictSet] at h; simp [h]
  | cons p m ih =>
    by_cases hp : p.1 = k
    · rw [dictSet, if_pos hp] at h
      rcases List.mem_cons.mp h with h | h
      · exact Or.inr h
      · exact Or.inl (List.mem_cons_of_mem p h)
    · rw [dictSet, if_neg hp] at h
      rcases List.mem_cons.mp h with h | h
      · exact Or.inl (h ▸ List.mem_cons_self p m)
      · rcases ih h with h | h
        · exact Or.inl (List.mem_cons_of_mem p h)
        · exact Or.inr h

theorem dictSet_append_of_notmem (m : HDict) (k : HKey) (v : HotelRecord)
    (h : dictMem m k = false) : dictSet m k v = m ++ [(k, v)] := by
  induction m with
  | nil => simp [dictSet]
  | cons p m ih =>
    rw [dictMem_cons] at h
    simp only [Bool.or_eq_false_iff, decide_eq_false_iff_not] at h
    rw [dictSet, if_neg h.1, ih h.2]
    simp

/-! Lemmas about `mergeMap` / `append_or_merge`. -/

theorem mergeMap_nil (ow : Bool) (E : HDict) : mergeMap ow [] E = E := rfl

theorem mergeMap_cons (ow : Bool) (a : HotelRecord) (N : List HotelRecord) (E : HDict) :
    mergeMap ow (a :: N) E = mergeMap ow N (mergeStep ow E a) := rfl

theorem mergeStep_skip (E : HDict) (a : HotelRecord) (h : dictMem E (keyOf a) = true) :
    mergeStep false E a = E := by
  simp [mergeStep, h]

theorem mergeStep_insert (E : HDict) (a : HotelRecord) (h : dictMem E (keyOf a) = false) :
    mergeStep false E a = dictSet E (keyOf a) a := by
  simp [mergeStep, h]

theorem mergeStep_true (E : HDict) (a : HotelRecord) :
    mergeStep true E a = dictSet E (keyOf a) a := by
  simp [mergeStep]

theorem dictMem_mergeStep_of_mem (ow : Bool) (E : HDict) (a : HotelRecord) (k : HKey)
    (h : dictMem E k = true) : dictMem (mergeStep ow E a) k = true := by
  unfold mergeStep
  split
  · exact h
  · exact dictMem_dictSet_of_mem _ _ _ _ h

theorem dictMem_mergeMap_of_mem (ow : Bool) (N : List HotelRecord) :
    ∀ E k, dictMem E k = true → dictMem (mergeMap ow N E) k = true := by
  induction N with
  | nil => intro E k h; exact h
  | cons a N ih =>
    intro E k h
    exact ih _ _ (dictMem_mergeStep_of_mem ow E a k h)

theorem dictMem_of_mergeStep (ow : Bool) (E : HDict) (a : HotelRecord) (k : HKey)
    (h : dictMem (mergeStep ow E a) k = true) : dictMem E k = true ∨ k = keyOf a := by
  unfold mergeStep at h
  split at h
  · exact Or.inl h
  · rcases (dictMem_dictSet_iff _ _ _ _).mp h with h | h
    · exact Or.inr h
    · exact Or.inl h

theorem dictMem_mergeStep_eq_false (ow : Bool) (E : HDict) (a : HotelRecord) (k : HKey)
    (h1 : dictMem E k = false) (h2 : k ≠ keyOf a) :
    dictMem (mergeStep ow E a) k = false := by
  cases hh : dictMem (mergeStep ow E a) k with
  | false => rfl
  | true =>
    rcases dictMem_of_mergeStep ow E a k hh with h | h
    · exact Bool.noConfusion (h1.symm.trans h)
    · exact absurd h h2

theorem mergeMap_false_preserves (N : List HotelRecord) :
    ∀ E k, dictMem E k = true →
      dictLookup (mergeMap false N E) k = dictLookup E k := by
  induction N with
  | nil => intro E k _; rfl
  | cons a N ih =>
    intro E k hk
    rw [mergeMap_cons]
    by_cases ha : dictMem E (keyOf a) = true
    · rw [mergeStep_skip E a ha]
      exact ih E k hk
    · have ha' : dictMem E (keyOf a) = false := by simpa using ha
      rw [mergeStep_insert E a ha']
      have hne : k ≠ keyOf a := by
        intro hh
        rw [hh] at hk
        exact Bool.noConfusion (ha'.symm.trans hk)
      rw [ih _ _ (dictMem_dictSet_of_mem E (keyOf a) k a hk),
        dictLookup_dictSet_ne E (keyOf a) k a hne]

theorem mergeMap_false_lookup_new (N : List HotelRecord) :
    ∀ E, (N.map keyOf).Nodup → ∀ h ∈ N, dictMem E (keyOf h) = false →
      dictLookup (mergeMap false N E) (keyOf h) = some h := by
  induction N with
  | nil => intro E _ h hh _; exact absurd hh (List.not_mem_nil h)
  | cons a N ih =>
    intro E hnd h hh hmem
    rw [mergeMap_cons]
    rcases List.mem_cons.mp hh with rfl | hh'
    · rw [mergeStep_insert E h hmem]
      rw [mergeMap_false_preserves N _ _ (dictMem_dictSet_self E (keyOf h) h)]
      exact dictLookup_dictSet_self E (keyOf h) h
    · have hka : keyOf h ≠ keyOf a := by
        rw [List.map_cons, List.nodup_cons] at hnd
        intro hh2
        exact hnd.1 (hh2 ▸ List.mem_map_of_mem keyOf hh')
      have hmem' : dictMem (mergeStep false E a) (keyOf h) = false :=
        dictMem_mergeStep_eq_false false E a (keyOf h) hmem hka
      exact ih _ (List.nodup_cons.mp (List.map_cons keyOf a N ▸ hnd)).2 h hh' hmem'

theorem mergeMap_true_preserves (N : List HotelRecord) :
    ∀ E k, (∀ h ∈ N, keyOf h ≠ k) → dictLookup (mergeMap true N E) k = dictLookup E k := by
  induction N with
  | nil => intro E k _; rfl
  | cons a N ih =>
    intro E k hk
    rw [mergeMap_cons, mergeStep_true]
    rw [ih _ _ (fun h hh => hk h (List.mem_cons_of_mem a hh))]
    exact dictLookup_dictSet_ne E (keyOf a) k a (hk a (List.mem_cons_self a N)).symm

theorem mergeMap_true_lookup (N : List HotelRecord) :
    ∀ E, (N.map keyOf).Nodup → ∀ h ∈ N, dictLookup (mergeMap true N E) (keyOf h) = some h := by
  induction N with
  | nil => intro E _ h hh; exact absurd hh (List.not_mem_nil h)
  | cons a N ih =>
    intro E hnd h hh
    rw [mergeMap_cons, mergeStep_true]
    rcases List.mem_cons.mp hh with rfl | hh'
    · have hrest : ∀ h' ∈ N, keyOf h' ≠ keyOf h := by
        rw [List.map_cons, List.nodup_cons] at hnd
        intro h' hm heq
        exact hnd.1 (heq ▸ List.mem_map_of_mem keyOf hm)
      rw [mergeMap_true_preserves N _ _ hrest]
      exact dictLookup_dictSet_self E (keyOf h) h
    · exact ih _ (List.nodup_cons.mp (List.map_cons keyOf a N ▸ hnd)).2 h hh'

theorem dictMem_mergeMap_new (N : List HotelRecord) :
    ∀ E h, h ∈ N → dictMem (mergeMap false N E) (keyOf h) = true := by
  induction N with
  | nil => intro E h hh; exact absurd hh (List.not_mem_nil h)
  | cons a N ih =>
    intro E h hh
    rw [mergeMap_cons]
    rcases List.mem_cons.mp hh with rfl | hh'
    · apply dictMem_mergeMap_of_mem
      by_cases hc : dictMem E (keyOf h) = true
      · rw [mergeStep_skip E h hc]
        exact hc
      · have hc' : dictMem E (keyOf h) = false := by simpa using hc
        rw [mergeStep_insert E h hc']
        exact dictMem_dictSet_self E (keyOf h) h
    · exact ih _ h hh'

theorem mergeMap_false_skip_all (N : List HotelRecord) :
    ∀ E, (∀ h ∈ N, dictMem E (keyOf h) = true) → mergeMap false N E = E := by
  induction N with
  | nil => intro E _; rfl
  | cons a N ih =>
    intro E hall
    rw [mergeMap_cons, mergeStep_skip E a (hall a (List.mem_cons_self a N))]
    exact ih E (fun h hh => hall h (List.mem_cons_of_mem a hh))

theorem nodupKeys_mergeStep (ow : Bool) (E : HDict) (a : HotelRecord)
    (h : nodupKeys E) : nodupKeys (mergeStep ow E a) := by
  unfold mergeStep
  split
  · exact h
  · exact nodupKeys_dictSet _ _ _ h

theorem nodupKeys_mergeMap (ow : Bool) (N : List HotelRecord) :
    ∀ E, nodupKeys E → nodupKeys (mergeMap ow N E) := by
  induction N with
  | nil => intro E h; exact h
  | cons a N ih =>
    intro E h
    exact ih _ (nodupKeys_mergeStep ow E a h)

theorem consistent_dictSet (m : HDict) (k : HKey) (v : HotelRecord)
    (h : ∀ p ∈ m, keyOf p.2 = p.1) (hv : keyOf v = k) :
    ∀ p ∈ dictSet m k v, keyOf p.2 = p.1 := by
  intro p hp
  rcases mem_dictSet m k v p hp with hp | hp
  · exact h p hp
  · rw [hp]
    exact hv

theorem consistent_mergeMap (ow : Bool) (N : List HotelRecord) :
    ∀ E, (∀ p ∈ E, keyOf p.2 = p.1) → ∀ p ∈ mergeMap ow N E, keyOf p.2 = p.1 := by
  induction N with
  | nil => intro E h; exact h
  | cons a N ih =>
    intro E h
    apply ih
    unfold mergeStep
    split
    · exact h
    · exact consistent_dictSet E (keyOf a) a h rfl

theorem foldl_dictSet_append :
    ∀ (l acc : HDict), nodupKeys (acc ++ l) → (∀ p ∈ l, keyOf p.2 = p.1) →
      (dictValues l).foldl (fun a h => dictSet a (keyOf h) h) acc = acc ++ l := by
  intro l
  induction l with
  | nil => intro acc _ _; simp [dictValues]
  | cons p l ih =>
    intro acc hnd hcons
    have hk : keyOf p.2 = p.1 := hcons p (List.mem_cons_self p l)
    have hmem : dictMem acc p.1 = false := by
      rw [dictMem_eq_false_iff]
      unfold nodupKeys at hnd
      rw [List.map_append] at hnd
      intro hmem
      exact (List.nodup_append.mp hnd).2.2 hmem (by simp)
    have hstep : dictSet acc (keyOf p.2) p.2 = acc ++ [p] := by
      rw [hk, dictSet_append_of_notmem acc p.1 p.2 hmem]
    have hnd' : nodupKeys ((acc ++ [p]) ++ l) := by
      unfold nodupKeys at hnd ⊢
      rw [List.append_assoc, List.singleton_append]
      exact hnd
    have := ih (acc ++ [p]) hnd' (fun q hq => hcons q (List.mem_cons_of_mem p hq))
    show List.foldl (fun a h => dictSet a (keyOf h) h) acc (dictValues (p :: l)) = acc ++ p :: l
    unfold dictValues
    rw [List.map_cons, List.foldl_cons, hstep]
    unfold dictValues at this
    rw [this, List.append_assoc, List.singleton_append]

theorem reindexBy_dictValues (m : HDict) (hnd : nodupKeys m)
    (hcons : ∀ p ∈ m, keyOf p.2 = p.1) : reindexBy (dictValues m) = m := by
  unfold reindexBy
  have h := foldl_dictSet_append m [] (by simpa [nodupKeys] using hnd) hcons
  simpa using h

/-- Claim C1: for every existing mapping `E` keyed by the identity key and
every list of new records `N`, `append_or_merge` with overwrite disabled keeps
every entry of `E` unchanged (and its value appears in the returned
collection), inserts each new record whose key is absent from `E`, and skips a
new record whose key is already present (`E`'s entry is kept); with overwrite
enabled the new record replaces the existing entry at its key; in neither mode
is an existing key ever dropped. -/
theorem append_or_merge_correct (E : HDict) (N : List HotelRecord)
    (_hE : nodupKeys E) (hN : (N.map keyOf).Nodup) :
    (∀ k v, dictLookup E k = some v →
      dictLookup (mergeMap false N E) k = some v ∧ v ∈ append_or_merge false N E) ∧
    (∀ h ∈ N, dictMem E (keyOf h) = false →
      dictLookup (mergeMap false N E) (keyOf h) = some h ∧
        h ∈ append_or_merge false N E) ∧
    (∀ h ∈ N, dictMem E (keyOf h) = true →
      dictLookup (mergeMap false N E) (keyOf h) = dictLookup E (keyOf h)) ∧
    (∀ h ∈ N, dictLookup (mergeMap true N E) (keyOf h) = some h) ∧
    (∀ k, dictMem E k = true →
      dictMem (mergeMap false N E) k = true ∧ dictMem (mergeMap true N E) k = true) := by
  refine ⟨?_, ?_, ?_, ?_, ?_⟩
  · intro k v hv
    have hm : dictMem E k = true := dictMem_of_lookup_some E k v hv
    have h1 : dictLookup (mergeMap false N E) k = some v := by
      rw [mergeMap_false_preserves N E k hm]
      exact hv
    exact ⟨h1, mem_values_of_lookup _ _ _ h1⟩
  · intro h hh hmem
    have h1 := mergeMap_false_lookup_new N E hN h hh hmem
    exact ⟨h1, mem_values_of_lookup _ _ _ h1⟩
  · intro h hh hmem
    exact mergeMap_false_preserves N E (keyOf h) hmem
  · exact fun h hh => mergeMap_true_lookup N E hN h hh
  · intro k hk
    exact ⟨dictMem_mergeMap_of_mem false N E k hk, dictMem_mergeMap_of_mem true N E k hk⟩

/-- Claim C3: merging with overwrite disabled is idempotent: re-indexing the
output of `append_or_merge` by identity key (as `main` does) and merging the
same new records again returns the identical list — nothing duplicated,
nothing dropped. -/
theorem append_or_merge_idempotent (E : HDict) (N : List HotelRecord)
    (hE : nodupKeys E) (hcons : ∀ p ∈ E, keyOf p.2 = p.1) :
    append_or_merge false N (reindexBy (append_or_merge false N E)) =
      append_or_merge false N E := by
  have hnd : nodupKeys (mergeMap false N E) := nodupKeys_mergeMap false N E hE
  have hc : ∀ p ∈ mergeMap false N E, keyOf p.2 = p.1 :=
    consistent_mergeMap false N E hcons
  have hre : reindexBy (append_or_merge false N E) = mergeMap false N E :=
    reindexBy_dictValues _ hnd hc
  unfold append_or_merge
  unfold append_or_merge at hre
  rw [hre, mergeMap_false_skip_all N _ (fun h hh => dictMem_mergeMap_new N _ h hh)]

/-- Sample records for the merge witnesses: `recA` and `recA'` share the
identity key `(some "abcde", some "Hotel A")`; `recB` has a fresh key. -/
def recA : HotelRecord :=
  { emptyRecord with hotel_code := some "abcde", hotel_name := some "Hotel A",
                     address := some "1 A St" }

/-- A rescrape of the same hotel as `recA` (same identity key, new rating). -/
def recA2 : HotelRecord :=
  { emptyRecord with hotel_code := some "abcde", hotel_name := some "Hotel A",
                     rating := some "4.5" }

/-- A record with an identity key absent from `E0`. -/
def recB : HotelRecord :=
  { emptyRecord with hotel_code := some "fghij", hotel_name := some "Hotel B" }

/-- A one-entry existing mapping holding `recA` under its identity key. -/
def E0 : HDict := [((some "abcde", some "Hotel A"), recA)]

/-- Witness for claim C1 at concrete inputs: merging `[recA2, recB]` into `E0`
with overwrite disabled keeps `recA` (skipping `recA2`) and inserts `recB`. -/
theorem append_or_merge_correct_witness :
    dictLookup (mergeMap false [recA2, recB] E0) (keyOf recA2) = dictLookup E0 (keyOf recA2) ∧
    recB ∈ append_or_merge false [recA2, recB] E0 := by
  have h := append_or_merge_correct E0 [recA2, recB] (by decide) (by decide)
  exact ⟨h.2.2.1 recA2 (by decide) (by decide), (h.2.1 recB (by decide) (by decide)).2⟩

/-- Witness for claim C3 at concrete inputs. -/
theorem append_or_merge_idempotent_witness :
    append_or_merge false [recA2, recB] (reindexBy (append_or_merge false [recA2, recB] E0)) =
      append_or_merge false [recA2, recB] E0 :=
  append_or_merge_idempotent E0 [recA2, recB] (by decide) (by decide)

/-! String helpers, embedded at the character-list level so that every
definition evaluates by kernel reduction (`decide`). -/

/-- Python `str.lower()` (ASCII model: maps A-Z to a-z; the scraper's inputs
are ASCII URL segments and DOM keywords). -/
def lowerChar (c : Char) : Char := if c.isUpper then Char.ofNat (c.toNat + 32) else c

/-- Python `str.lower()` on a whole string. -/
def strLower (s : String) : String := String.mk (s.toList.map lowerChar)

/-- Python `str.strip()`: drop whitespace from both ends. -/
def strTrim (s : String) : String :=
  String.mk ((s.toList.dropWhile Char.isWhitespace).reverse.dropWhile Char.isWhitespace).reverse

/-- Is the first list a prefix of the second? -/
def charsIsPre : List Char → List Char → Bool
  | [], _ => true
  | _ :: _, [] => false
  | a :: as, b :: bs => a == b && charsIsPre as bs

/-- Is the first list a contiguous sublist of the second? -/
def charsIsInside : List Char → List Char → Bool
  | needle, [] => needle.isEmpty
  | needle, c :: t => charsIsPre needle (c :: t) || charsIsInside needle t

/-- Python `needle in hay` on strings. -/
def strContains (hay needle : String) : Bool := charsIsInside needle.toList hay.toList

/-- Helper for `splitSlash`: accumulates the current segment (reversed). -/
def splitSlashAux : List Char → List Char → List String
  | [], acc => [String.mk acc.reverse]
  | c :: cs, acc =>
    if c = '/' then String.mk acc.reverse :: splitSlashAux cs []
    else splitSlashAux cs (c :: acc)

/-- Python `path.split("/")` (single-character separator). -/
def splitSlash (s : String) : List String := splitSlashAux s.toList []

/-! Hotel-code extraction from a URL (`get_hotel_code_from_url`, lines 86-105). -/

/-- Character class of the regex `[a-z0-9]` compiled with `re.I` (ASCII model). -/
def isAlnumChar (c : Char) : Bool := c.isAlpha || c.isDigit

/-- The first-loop test `len(p) == 5 and re.match(r"^[a-z0-9]{5}$", p, re.I)`:
the segment is exactly five alphanumeric characters. -/
def isCodeSegment (p : String) : Bool := p.length == 5 && p.toList.all isAlnumChar

/-- Drop everything up to and including the first `://`, if present. -/
def dropScheme : List Char → Option (List Char)
  | [] => none
  | c :: cs =>
    if c = ':' ∧ cs.take 2 = ['/', '/'] then some (cs.drop 2)
    else dropScheme cs

/-- Model of `urllib.parse.urlparse(url).path`: strip a leading
`scheme://authority` when the URL has one, then cut at the first `?` or `#`. -/
def urlPath (u : String) : String :=
  let cs := u.toList
  let afterAuth :=
    match dropScheme cs with
    | some rest => rest.dropWhile (fun c => !(c == '/'))
    | none => cs
  String.mk (afterAuth.takeWhile (fun c => !(c == '?' || c == '#')))

/-- Python `path.rstrip("/")`. -/
def rstripSlash (s : String) : String :=
  String.mk (s.toList.reverse.dropWhile (fun c => c == '/')).reverse

/-- First loop of `get_hotel_code_from_url`: the first five-character
alphanumeric segment, lowercased. -/
def findCodeSegment : List String → Option String
  | [] => none
  | p :: rest => if isCodeSegment p then some (strLower p) else findCodeSegment rest

/-- The fallback-loop test: the segment is truthy and its lowercase form is
neither "hoteldetail" nor "amenities". -/
def isFallbackSegment (p : String) : Bool :=
  !(p == "") && !(strLower p == "hoteldetail") && !(strLower p == "amenities")

/-- Second loop of `get_hotel_code_from_url` (applied to the reversed
segment list): the first admissible fallback segment, lowercased. -/
def findFallbackSegment : List String → Option String
  | [] => none
  | p :: rest => if isFallbackSegment p then some (strLower p) else findFallbackSegment rest

/-- `get_hotel_code_from_url(url)` (lines 86-105).  The argument is optional
to model a missing (`None`) URL; `if not url` treats `None` and `""` alike. -/
def get_hotel_code_from_url (url : Option String) : Option String :=
  match url with
  | none => none
  | some u =>
    if u = "" then none
    else
      let parts := splitSlash (rstripSlash (urlPath u))
      match findCodeSegment parts with
      | some c => some c
      | none => findFallbackSegment parts.reverse

theorem findCodeSegment_eq_find (parts : List String) :
    findCodeSegment parts = (parts.find? isCodeSegment).map strLower := by
  induction parts with
  | nil => rfl
  | cons p rest ih =>
    by_cases h : isCodeSegment p = true
    · rw [findCodeSegment, if_pos h, List.find?_cons_of_pos _ h]
      rfl
    · have h' : ¬ isCodeSegment p = true := h
      rw [findCodeSegment, if_neg h', List.find?_cons_of_neg _ (by simpa using h), ih]

theorem findFallbackSegment_eq_find (parts : List String) :
    findFallbackSegment parts = (parts.find? isFallbackSegment).map strLower := by
  induction parts with
  | nil => rfl
  | cons p rest ih =>
    by_cases h : isFallbackSegment p = true
    · rw [findFallbackSegment, if_pos h, List.find?_cons_of_pos _ h]
      rfl
    · rw [findFallbackSegment, if_neg h, List.find?_cons_of_neg _ (by simpa using h), ih]

/-- Claim C9: on a non-empty URL, `get_hotel_code_from_url` returns (lowercased)
the first path segment of exactly five alphanumeric characters when one exists,
else (lowercased) the last non-empty path segment that is not "hoteldetail" or
"amenities" (`find?` on the reversed segment list); on a missing or empty URL
it returns `None`.  The segment predicates are characterized semantically. -/
theorem get_hotel_code_from_url_spec :
    (∀ u : String, u ≠ "" →
      get_hotel_code_from_url (some u) =
        ((((splitSlash (rstripSlash (urlPath u))).find? isCodeSegment).map strLower).or
          ((((splitSlash (rstripSlash (urlPath u))).reverse.find? isFallbackSegment)).map
            strLower))) ∧
    (∀ p : String, isCodeSegment p = true ↔
      p.length = 5 ∧ ∀ c ∈ p.toList, c.isAlpha = true ∨ c.isDigit = true) ∧
    (∀ p : String, isFallbackSegment p = true ↔
      p ≠ "" ∧ strLower p ≠ "hoteldetail" ∧ strLower p ≠ "amenities") ∧
    get_hotel_code_from_url none = none ∧
    get_hotel_code_from_url (some "") = none := by
  refine ⟨?_, ?_, ?_, rfl, rfl⟩
  · intro u hu
    rw [get_hotel_code_from_url, if_neg hu]
    dsimp only
    rw [findCodeSegment_eq_find, findFallbackSegment_eq_find]
    cases (splitSlash (rstripSlash (urlPath u))).find? isCodeSegment <;> rfl
  · intro p
    unfold isCodeSegment isAlnumChar
    rw [Bool.and_eq_true, beq_iff_eq, List.all_eq_true]
    constructor
    · rintro ⟨h1, h2⟩
      exact ⟨h1, fun c hc => by simpa [Bool.or_eq_true] using h2 c hc⟩
    · rintro ⟨h1, h2⟩
      exact ⟨h1, fun c hc => by simpa [Bool.or_eq_true] using h2 c hc⟩
  · intro p
    unfold isFallbackSegment
    simp [Bool.and_eq_true, -ne_eq, and_assoc]

/-- Witness for claim C9 at a concrete hotel URL: the code segment wins. -/
theorem get_hotel_code_from_url_spec_witness :
    get_hotel_code_from_url
      (some "https://www.ihg.com/holidayinn/hotels/us/en/brooklyn/nycbs/hoteldetail") =
      some "nycbs" := by
  have h := get_hotel_code_from_url_spec.1
    "https://www.ihg.com/holidayinn/hotels/us/en/brooklyn/nycbs/hoteldetail" (by decide)
  rw [h]
  decide

/-! City URL enumeration (`IHGCitiesScraper.scrape_city_urls`, lines 176-203;
the variant `IHGPetFriendlyLinksScraper.scrape_links` of `testing.py` collects
the same elements without the keyword filter). -/

/-- A link element harvested from the Explore page: its `href` attribute
(`None` when absent) and its visible text. -/
structure LinkEl where
  href : Option String
  text : String
deriving DecidableEq

/-- A named city listing link, as stored in `ihg_city_urls.csv`. -/
structure CityRef where
  city_name : String
  city_url : String
deriving DecidableEq

/-- The keep-filter of `scrape_city_urls` (line 199): the href must mention
the domain and one of the collection keywords. -/
def keepCityUrl (url : String) : Bool :=
  strContains url "ihg.com" &&
    (strContains url "hotels" || strContains url "/explore/" ||
      strContains url "/destinations" || strContains (strLower url) "pet")

/-- The collection loop of `scrape_city_urls` (lines 190-202), parameterized
by the link elements the browser returned; `seen` accumulates the hrefs
already kept.  On a wait timeout the browser yields no elements and the loop
returns `[]`. -/
def cityUrlLoop (seen : List String) : List LinkEl → List CityRef
  | [] => []
  | el :: rest =>
    match el.href with
    | none => cityUrlLoop seen rest
    | some url =>
      if url = "" ∨ url ∈ seen then cityUrlLoop seen rest
      else if keepCityUrl url then
        ⟨strTrim el.text, url⟩ :: cityUrlLoop (url :: seen) rest
      else cityUrlLoop seen rest

/-- `scrape_city_urls` over the matching link elements found on the page. -/
def scrape_city_urls (links : List LinkEl) : List CityRef := cityUrlLoop [] links

theorem cityUrlLoop_sound (links : List LinkEl) :
    ∀ seen, ∀ c ∈ cityUrlLoop seen links,
      keepCityUrl c.city_url = true ∧ c.city_url ∉ seen ∧
        ∃ el ∈ links, el.href = some c.city_url ∧ strTrim el.text = c.city_name := by
  induction links with
  | nil => intro seen c hc; simp [cityUrlLoop] at hc
  | cons el rest ih =>
    intro seen c hc
    cases hel : el.href with
    | none =>
      simp only [cityUrlLoop, hel] at hc
      obtain ⟨h1, h2, el', hmem, h3⟩ := ih seen c hc
      exact ⟨h1, h2, el', List.mem_cons_of_mem el hmem, h3⟩
    | some url =>
      simp only [cityUrlLoop, hel] at hc
      by_cases hu : url = "" ∨ url ∈ seen
      · rw [if_pos hu] at hc
        obtain ⟨h1, h2, el', hmem, h3⟩ := ih seen c hc
        exact ⟨h1, h2, el', List.mem_cons_of_mem el hmem, h3⟩
      · rw [if_neg hu] at hc
        by_cases hk : keepCityUrl url = true
        · rw [if_pos hk] at hc
          rcases List.mem_cons.mp hc with rfl | hc'
          · exact ⟨hk, fun hmem => hu (Or.inr hmem),
              el, List.mem_cons_self el rest, hel, rfl⟩
          · obtain ⟨h1, h2, el', hmem, h3⟩ := ih (url :: seen) c hc'
            exact ⟨h1, fun hs => h2 (List.mem_cons_of_mem url hs),
              el', List.mem_cons_of_mem el hmem, h3⟩
        · rw [if_neg hk] at hc
          obtain ⟨h1, h2, el', hmem, h3⟩ := ih seen c hc
          exact ⟨h1, h2, el', List.mem_cons_of_mem el hmem, h3⟩

theorem cityUrlLoop_nodup (links : List LinkEl) :
    ∀ seen, ((cityUrlLoop seen links).map (fun c => c.city_url)).Nodup := by
  induction links with
  | nil => intro seen; simp [cityUrlLoop]
  | cons el rest ih =>
    intro seen
    cases hel : el.href with
    | none =>
      simp only [cityUrlLoop, hel]
      exact ih seen
    | some url =>
      simp only [cityUrlLoop, hel]
      by_cases hu : url = "" ∨ url ∈ seen
      · rw [if_pos hu]
        exact ih seen
      · rw [if_neg hu]
        by_cases hk : keepCityUrl url = true
        · rw [if_pos hk]
          simp only [List.map_cons]
          rw [List.nodup_cons]
          refine ⟨?_, ih (url :: seen)⟩
          intro hmem
          obtain ⟨c, hc, hcu⟩ := List.mem_map.mp hmem
          obtain ⟨_, h2, _⟩ := cityUrlLoop_sound rest (url :: seen) c hc
          rw [hcu] at h2
          exact h2 (List.mem_cons_self url seen)
        · rw [if_neg hk]
          exact ih seen

theorem cityUrlLoop_complete (links : List LinkEl) :
    ∀ seen (el : LinkEl) url, el ∈ links → el.href = some url → url ≠ "" →
      keepCityUrl url = true → url ∉ seen →
      url ∈ (cityUrlLoop seen links).map (fun c => c.city_url) := by
  induction links with
  | nil => intro seen el url h; exact absurd h (List.not_mem_nil el)
  | cons e rest ih =>
    intro seen el url hmem hhref hne hk hseen
    rcases List.mem_cons.mp hmem with rfl | hmem'
    · simp only [cityUrlLoop, hhref]
      rw [if_neg (by push_neg; exact ⟨hne, hseen⟩), if_pos hk]
      simp
    · cases hhe : e.href with
      | none =>
        simp only [cityUrlLoop, hhe]
        exact ih seen el url hmem' hhref hne hk hseen
      | some u2 =>
        simp only [cityUrlLoop, hhe]
        by_cases hu : u2 = "" ∨ u2 ∈ seen
        · rw [if_pos hu]
          exact ih seen el url hmem' hhref hne hk hseen
        · rw [if_neg hu]
          by_cases hk2 : keepCityUrl u2 = true
          · rw [if_pos hk2]
            by_cases heq : url = u2
            · simp [heq]
            · simp only [List.map_cons, List.mem_cons]
              exact Or.inr (ih (u2 :: seen) el url hmem' hhref hne hk
                (fun hs => (List.mem_cons.mp hs).elim heq hseen))
          · rw [if_neg hk2]
            exact ih seen el url hmem' hhref hne hk hseen

theorem cityUrlLoop_sublist (links : List LinkEl) :
    ∀ seen, ((cityUrlLoop seen links).map (fun c => c.city_url)).Sublist
      (links.filterMap (fun el => el.href)) := by
  induction links with
  | nil => intro seen; simp [cityUrlLoop]
  | cons el rest ih =>
    intro seen
    cases hel : el.href with
    | none =>
      simp only [cityUrlLoop, hel, List.filterMap_cons]
      exact ih seen
    | some url =>
      simp only [cityUrlLoop, hel, List.filterMap_cons]
      by_cases hu : url = "" ∨ url ∈ seen
      · rw [if_pos hu]
        exact (ih seen).cons url
      · rw [if_neg hu]
        by_cases hk : keepCityUrl url = true
        · rw [if_pos hk]
          simp only [List.map_cons]
          exact (ih (url :: seen)).cons₂ url
        · rw [if_neg hk]
          exact (ih seen).cons url

/-- Claim C7: the city enumerator returns an order-preserving sequence of
(name, url) pairs collected from the matching link elements, deduplicated by
href, keeping exactly the hrefs that contain the domain substring and at
least one keyword substring; with no matching elements (bounded-timeout
case) it returns the empty sequence. -/
theorem scrape_city_urls_spec :
    scrape_city_urls [] = [] ∧
    (∀ links, ((scrape_city_urls links).map (fun c => c.city_url)).Nodup) ∧
    (∀ links, ∀ c ∈ scrape_city_urls links,
      keepCityUrl c.city_url = true ∧
        ∃ el ∈ links, el.href = some c.city_url ∧ strTrim el.text = c.city_name) ∧
    (∀ links (el : LinkEl) url, el ∈ links → el.href = some url → url ≠ "" →
      keepCityUrl url = true →
      url ∈ (scrape_city_urls links).map (fun c => c.city_url)) ∧
    (∀ links, ((scrape_city_urls links).map (fun c => c.city_url)).Sublist
      (links.filterMap (fun el => el.href))) ∧
    (∀ url, keepCityUrl url = true ↔
      strContains url "ihg.com" = true ∧
        (strContains url "hotels" = true ∨ strContains url "/explore/" = true ∨
          strContains url "/destinations" = true ∨
          strContains (strLower url) "pet" = true)) := by
  refine ⟨rfl, ?_, ?_, ?_, ?_, ?_⟩
  · intro links
    exact cityUrlLoop_nodup links []
  · intro links c hc
    obtain ⟨h1, _, h3⟩ := cityUrlLoop_sound links [] c hc
    exact ⟨h1, h3⟩
  · intro links el url hmem hhref hne hk
    exact cityUrlLoop_complete links [] el url hmem hhref hne hk (List.not_mem_nil url)
  · intro links
    exact cityUrlLoop_sublist links []
  · intro url
    unfold keepCityUrl
    simp only [Bool.and_eq_true, Bool.or_eq_true, or_assoc]

/-- Witness for claim C7 at a concrete element list: a duplicate href and a
non-matching href are dropped, the matching ones kept in order. -/
theorem scrape_city_urls_spec_witness :
    "https://www.ihg.com/explore/pet-friendly-hotels/miami" ∈
      (scrape_city_urls
        [⟨some "https://www.ihg.com/explore/pet-friendly-hotels/miami", "Miami"⟩,
         ⟨some "https://example.org/other", "Other"⟩,
         ⟨some "https://www.ihg.com/explore/pet-friendly-hotels/miami", "Miami again"⟩]).map
        (fun c => c.city_url) := by
  have h := scrape_city_urls_spec.2.2.2.1
    [⟨some "https://www.ihg.com/explore/pet-friendly-hotels/miami", "Miami"⟩,
     ⟨some "https://example.org/other", "Other"⟩,
     ⟨some "https://www.ihg.com/explore/pet-friendly-hotels/miami", "Miami again"⟩]
    ⟨some "https://www.ihg.com/explore/pet-friendly-hotels/miami", "Miami"⟩
    "https://www.ihg.com/explore/pet-friendly-hotels/miami"
    (by decide) rfl (by decide) (by decide)
  exact h

/-! Phone extraction (`IHGHotelScraper._extract_phone`, lines 477-499). -/

/-- Python `href.replace("tel:", "")`: delete every (non-overlapping,
left-to-right) occurrence of `tel:`. -/
def removeTel : List Char → List Char
  | 't' :: 'e' :: 'l' :: ':' :: cs => removeTel cs
  | c :: cs => c :: removeTel cs
  | [] => []

/-- The number taken from one `tel:`-scheme link:
`href.replace("tel:", "").strip()`, kept only if non-empty (`if num:`). -/
def telLinkNum (href : String) : Option String :=
  let num := strTrim (String.mk (removeTel href.toList))
  if num = "" then none else some num

/-- Character class `[\d\-\(\) \.]` of the phone regex of line 493. -/
def isPhoneChar (c : Char) : Bool :=
  c.isDigit || c == '-' || c == '(' || c == ')' || c == ' ' || c == '.'

/-- Largest index `i ≥ 7` of `run` holding a digit: the position of the final
`\d` of the regex after the greedy `{7,}` quantifier backtracks. -/
def lastDigitIdxGe7 (run : List Char) : Option Nat :=
  ((List.range run.length).filter
    (fun i => decide (7 ≤ i) && (run.getD i ' ').isDigit)).getLast?

/-- Match `\d[\d\-\(\) \.]{7,}\d` at the head of `cs` (greedy, as Python
`re` matches it): first a digit, then the maximal separator run truncated at
its last digit in position ≥ 7. -/
def matchPhoneCore (cs : List Char) : Option (List Char) :=
  match cs with
  | [] => none
  | d :: rest =>
    if d.isDigit then
      match lastDigitIdxGe7 (rest.takeWhile isPhoneChar) with
      | some i => some (d :: (rest.takeWhile isPhoneChar).take (i + 1))
      | none => none
    else none

/-- Match `\+?\d[\d\-\(\) \.]{7,}\d` at the head of `cs`: the optional `+` is
tried first; without it the leading character must itself be a digit. -/
def matchPhoneAt (cs : List Char) : Option (List Char) :=
  match cs with
  | [] => none
  | c :: rest =>
    if c = '+' then (matchPhoneCore rest).map (fun m => '+' :: m)
    else matchPhoneCore (c :: rest)

/-- `re.search` for the phone pattern: the match at the leftmost position
where one starts. -/
def searchPhone : List Char → Option (List Char)
  | [] => none
  | c :: rest =>
    match matchPhoneAt (c :: rest) with
    | some m => some m
    | none => searchPhone rest

/-- `_extract_phone`, parameterized by the hrefs of the `tel:`-scheme links
found on the page (`get_attribute("href") or ""`) and by the page body text:
first link number wins, else the regex search over the visible text
(`m.group(1).strip()`), else `None`. -/
def extract_phone (telHrefs : List String) (bodyText : String) : Option String :=
  match telHrefs.findSome? telLinkNum with
  | some num => some num
  | none => (searchPhone bodyText.toList).map (fun m => strTrim (String.mk m))

/-- Shape guaranteed by the phone regex: an optional `+`, a digit, at least 7
digit-or-separator characters, and a final digit — at least 9 characters in
total, but not necessarily 9 digits. -/
def PhoneShape (m : List Char) : Prop :=
  ∃ d mid dl, (m = d :: mid ++ [dl] ∨ m = '+' :: d :: mid ++ [dl]) ∧
    d.isDigit = true ∧ dl.isDigit = true ∧ 7 ≤ mid.length ∧
    (∀ c ∈ mid, isPhoneChar c = true)

theorem take_succ_getD (l : List Char) :
    ∀ i, i < l.length → l.take (i + 1) = l.take i ++ [l.getD i ' '] := by
  induction l with
  | nil => intro i h; simp at h
  | cons c cs ih =>
    intro i h
    cases i with
    | zero => simp [List.getD]
    | succ j =>
      simp only [List.take_succ_cons, List.getD_cons_succ]
      rw [ih j (by simpa using h)]
      simp

theorem lastDigitIdxGe7_spec (run : List Char) (i : Nat)
    (h : lastDigitIdxGe7 run = some i) :
    7 ≤ i ∧ i < run.length ∧ (run.getD i ' ').isDigit = true := by
  unfold lastDigitIdxGe7 at h
  have hmem := List.mem_getLast?_eq_getLast (l :=
    (List.range run.length).filter (fun i => decide (7 ≤ i) && (run.getD i ' ').isDigit))
    (x := i) h
  obtain ⟨hne, heq⟩ := hmem
  have hin : i ∈ (List.range run.length).filter
      (fun i => decide (7 ≤ i) && (run.getD i ' ').isDigit) := by
    rw [heq]
    exact List.getLast_mem hne
  rw [List.mem_filter, List.mem_range] at hin
  obtain ⟨h1, h2⟩ := hin
  rw [Bool.and_eq_true, decide_eq_true_eq] at h2
  exact ⟨h2.1, h1, h2.2⟩

theorem matchPhoneCore_spec (cs m : List Char) (h : matchPhoneCore cs = some m) :
    (∃ d mid dl, m = d :: mid ++ [dl] ∧ d.isDigit = true ∧ dl.isDigit = true ∧
      7 ≤ mid.length ∧ (∀ c ∈ mid, isPhoneChar c = true)) ∧
    m.IsPrefix cs := by
  cases cs with
  | nil => simp [matchPhoneCore] at h
  | cons d rest =>
    by_cases hd : d.isDigit = true
    · rw [matchPhoneCore, if_pos hd] at h
      cases hidx : lastDigitIdxGe7 (rest.takeWhile isPhoneChar) with
      | none => rw [hidx] at h; exact absurd h (by simp)
      | some i =>
        rw [hidx] at h
        simp only [Option.some.injEq] at h
        obtain ⟨h7, hlt, hdig⟩ := lastDigitIdxGe7_spec _ i hidx
        set run := rest.takeWhile isPhoneChar with hrun
        have hsplit : run.take (i + 1) = run.take i ++ [run.getD i ' '] :=
          take_succ_getD run i hlt
        constructor
        · refine ⟨d, run.take i, run.getD i ' ', ?_, hd, hdig, ?_, ?_⟩
          · rw [← h, hsplit]
            simp
          · rw [List.length_take]
            omega
          · intro c hc
            have hcrun : c ∈ run := List.mem_of_mem_take hc
            exact List.mem_takeWhile_imp hcrun
        · rw [← h]
          have h1 : (run.take (i + 1)).IsPrefix run := List.take_prefix _ _
          have h2 : run.IsPrefix rest := List.takeWhile_prefix _
          obtain ⟨t, ht⟩ := h1.trans h2
          exact ⟨t, by rw [← ht]; rfl⟩
    · rw [matchPhoneCore, if_neg hd] at h
      exact absurd h (by simp)

theorem matchPhoneAt_spec (cs m : List Char) (h : matchPhoneAt cs = some m) :
    PhoneShape m ∧ m.IsPrefix cs := by
  cases cs with
  | nil => simp [matchPhoneAt] at h
  | cons c rest =>
    by_cases hc : c = '+'
    · rw [matchPhoneAt, if_pos hc] at h
      cases hcore : matchPhoneCore rest with
      | none => rw [hcore] at h; exact absurd h (by simp)
      | some m' =>
        rw [hcore] at h
        simp only [Option.map_some', Option.some.injEq] at h
        obtain ⟨⟨d, mid, dl, hm', hd, hdl, h7, hmid⟩, hpre⟩ :=
          matchPhoneCore_spec rest m' hcore
        refine ⟨⟨d, mid, dl, Or.inr (by rw [← h, hm']; simp), hd, hdl, h7, hmid⟩, ?_⟩
        obtain ⟨t, ht⟩ := hpre
        exact ⟨t, by rw [← h, hc, ← ht]; rfl⟩
    · rw [matchPhoneAt, if_neg hc] at h
      obtain ⟨⟨d, mid, dl, hm, hd, hdl, h7, hmid⟩, hpre⟩ :=
        matchPhoneCore_spec (c :: rest) m h
      exact ⟨⟨d, mid, dl, Or.inl hm, hd, hdl, h7, hmid⟩, hpre⟩

theorem searchPhone_spec (cs : List Char) :
    ∀ m, searchPhone cs = some m → PhoneShape m ∧ m.IsInfix cs := by
  induction cs with
  | nil => intro m h; simp [searchPhone] at h
  | cons c rest ih =>
    intro m h
    rw [searchPhone] at h
    cases hat : matchPhoneAt (c :: rest) with
    | some m' =>
      rw [hat] at h
      simp only [Option.some.injEq] at h
      obtain ⟨hshape, hpre⟩ := matchPhoneAt_spec (c :: rest) m' hat
      exact ⟨h ▸ hshape, h ▸ hpre.isInfix⟩
    | none =>
      rw [hat] at h
      obtain ⟨hshape, hinf⟩ := ih m h
      obtain ⟨s, t, hst⟩ := hinf
      exact ⟨hshape, c :: s, t, by rw [← hst]; rfl⟩

theorem phoneShape_length (m : List Char) (h : PhoneShape m) : 9 ≤ m.length := by
  obtain ⟨d, mid, dl, hm, _, _, h7, _⟩ := h
  rcases hm with hm | hm <;> rw [hm] <;> simp <;> omega

/-- Claim C10 counterexample: with no `tel:` link, `_extract_phone` returns
the substring "1-2-3-4-5" of the visible text, which contains only five
digits — fewer than the nine the claim asserts; the regex guarantees nine
total characters, not nine digits. -/
theorem extract_phone_counterexample :
    extract_phone [] "call 1-2-3-4-5 now" = some "1-2-3-4-5" ∧
    (("1-2-3-4-5" : String).toList.filter Char.isDigit).length = 5 := by
  constructor
  · decide
  · decide

/-- Claim C10 (amended): phone extraction prefers the first `tel:`-scheme
link yielding a non-empty number; otherwise it returns the trimmed leftmost
substring of the visible text matching the phone pattern — optional `+`,
digit, at least seven digit-or-separator characters, final digit, hence at
least nine characters in total (not nine digits); if neither applies it
returns null. -/
theorem extract_phone_amended :
    (∀ telHrefs bodyText num, telHrefs.findSome? telLinkNum = some num →
      extract_phone telHrefs bodyText = some num) ∧
    (∀ telHrefs bodyText s, telHrefs.findSome? telLinkNum = none →
      extract_phone telHrefs bodyText = some s →
      ∃ m, m.IsInfix bodyText.toList ∧ PhoneShape m ∧ 9 ≤ m.length ∧
        s = strTrim (String.mk m)) ∧
    (∀ telHrefs bodyText, telHrefs.findSome? telLinkNum = none →
      searchPhone bodyText.toList = none → extract_phone telHrefs bodyText = none) := by
  refine ⟨?_, ?_, ?_⟩
  · intro telHrefs bodyText num h
    rw [extract_phone, h]
  · intro telHrefs bodyText s h hs
    rw [extract_phone, h] at hs
    cases hsea : searchPhone bodyText.toList with
    | none => rw [hsea] at hs; exact absurd hs (by simp)
    | some m =>
      rw [hsea] at hs
      simp only [Option.map_some', Option.some.injEq] at hs
      obtain ⟨hshape, hinf⟩ := searchPhone_spec bodyText.toList m hsea
      exact ⟨m, hinf, hshape, phoneShape_length m hshape, hs.symm⟩
  · intro telHrefs bodyText h hsea
    rw [extract_phone, h, hsea]
    rfl

/-- Witness for claim C10 (amended) at a concrete page text. -/
theorem extract_phone_amended_witness :
    ∃ m, m.IsInfix ("call 5551234567 now" : String).toList ∧ PhoneShape m ∧
      9 ≤ m.length ∧ "5551234567" = strTrim (String.mk m) :=
  extract_phone_amended.2.1 [] "call 5551234567 now" "5551234567" rfl (by decide)

/-! JSON serialization: `json.dumps(..., ensure_ascii=False)` for the flat
structures the pipeline produces (lists of strings and string-to-string
dicts), and a sound grammar of the JSON texts it emits. -/

/-- Lower-case hex digit for `n < 16`. -/
def hexDigitChar (n : Nat) : Char :=
  if n < 10 then Char.ofNat ('0'.toNat + n) else Char.ofNat ('a'.toNat + n - 10)

/-- Escape one character as `json.dumps` does with `ensure_ascii=False`:
quote, backslash, and control characters are escaped (named escapes for the
common controls, `\u00XX` for the rest); everything else is literal. -/
def escChar (c : Char) : List Char :=
  if c = '"' then ['\\', '"']
  else if c = '\\' then ['\\', '\\']
  else if c = '\n' then ['\\', 'n']
  else if c = '\t' then ['\\', 't']
  else if c = '\r' then ['\\', 'r']
  else if c.toNat = 8 then ['\\', 'b']
  else if c.toNat = 12 then ['\\', 'f']
  else if c.toNat < 32 then
    ['\\', 'u', '0', '0', hexDigitChar (c.toNat / 16), hexDigitChar (c.toNat % 16)]
  else [c]

/-- JSON string literal for `s`. -/
def quoteStr (s : String) : List Char := '"' :: ((s.toList.map escChar).flatten ++ ['"'])

/-- `", "`-joined concatenation (the `json.dumps` default item separator). -/
def sepJoin : List (List Char) → List Char
  | [] => []
  | [x] => x
  | x :: y :: xs => x ++ ',' :: ' ' :: sepJoin (y :: xs)

/-- `json.dumps` of a list of strings. -/
def dumpArr (l : List String) : String :=
  String.mk ('[' :: (sepJoin (l.map quoteStr) ++ [']']))

/-- `json.dumps` of a string-keyed, string-valued dict (insertion order;
`": "` is the default key separator). -/
def dumpObj (l : List (String × String)) : String :=
  String.mk ('\x7b' ::
    (sepJoin (l.map (fun kv => quoteStr kv.1 ++ ':' :: ' ' :: quoteStr kv.2)) ++ ['\x7d']))

/-- Escape codes legal after a backslash in a JSON string literal. -/
def isEscCode (c : Char) : Bool :=
  c == '"' || c == '\\' || c == '/' || c == 'b' || c == 'f' || c == 'n' || c == 'r' || c == 't'

/-- Hexadecimal digit (either case). -/
def isHexChar (c : Char) : Bool :=
  c.isDigit || (decide ('a' ≤ c) && decide (c ≤ 'f')) || (decide ('A' ≤ c) && decide (c ≤ 'F'))

/-- Grammar of JSON string-literal bodies (the characters between the
quotes), per RFC 8259: unescaped characters are neither controls nor `"`
nor `\`; escapes are a named code or `\u` plus four hex digits. -/
inductive JStrBody : List Char → Prop
  | nil : JStrBody []
  | plain (c : Char) (cs : List Char) (h1 : 32 ≤ c.toNat) (h2 : c ≠ '"') (h3 : c ≠ '\\')
      (ih : JStrBody cs) : JStrBody (c :: cs)
  | esc (c : Char) (cs : List Char) (h : isEscCode c = true) (ih : JStrBody cs) :
      JStrBody ('\\' :: c :: cs)
  | uesc (a b c d : Char) (cs : List Char) (ha : isHexChar a = true) (hb : isHexChar b = true)
      (hc : isHexChar c = true) (hd : isHexChar d = true) (ih : JStrBody cs) :
      JStrBody ('\\' :: 'u' :: a :: b :: c :: d :: cs)

/-- Grammar of JSON string literals. -/
inductive JStr : List Char → Prop
  | mk (body : List Char) (h : JStrBody body) : JStr ('"' :: body ++ ['"'])

/-- One or more JSON string literals joined by `", "`. -/
inductive JStrSeq : List Char → Prop
  | single (s : List Char) (h : JStr s) : JStrSeq s
  | cons (s rest : List Char) (h : JStr s) (ih : JStrSeq rest) :
      JStrSeq (s ++ ',' :: ' ' :: rest)

/-- One or more JSON `"key": "value"` pairs joined by `", "`. -/
inductive JPairSeq : List Char → Prop
  | single (k v : List Char) (hk : JStr k) (hv : JStr v) : JPairSeq (k ++ ':' :: ' ' :: v)
  | cons (k v rest : List Char) (hk : JStr k) (hv : JStr v) (ih : JPairSeq rest) :
      JPairSeq (k ++ ':' :: ' ' :: (v ++ ',' :: ' ' :: rest))

/-- The JSON texts the pipeline can emit at top level: an array of string
literals or an object with string-literal values (possibly empty).  Every
text in this grammar is a syntactically valid JSON value per RFC 8259 (with
`", "` and `": "` as the only whitespace), so membership is a sound witness
of "parses as valid JSON". -/
inductive JsonTop : List Char → Prop
  | emptyArr : JsonTop ['[', ']']
  | arr (body : List Char) (h : JStrSeq body) : JsonTop ('[' :: body ++ [']'])
  | emptyObj : JsonTop ['\x7b', '\x7d']
  | obj (body : List Char) (h : JPairSeq body) : JsonTop ('\x7b' :: body ++ ['\x7d'])

/-- A persisted `*_json` field value is either null or a valid JSON text. -/
def jsonFieldOk : Option String → Prop
  | Option.none => True
  | some s => JsonTop s.toList

theorem isHexChar_hexDigitChar : ∀ n, n < 16 → isHexChar (hexDigitChar n) = true := by decide

theorem jStrBody_escChar (c : Char) (cs : List Char) (h : JStrBody cs) :
    JStrBody (escChar c ++ cs) := by
  unfold escChar
  by_cases h1 : c = '"'
  · rw [if_pos h1]
    exact JStrBody.esc '"' cs (by decide) h
  · rw [if_neg h1]
    by_cases h2 : c = '\\'
    · rw [if_pos h2]
      exact JStrBody.esc '\\' cs (by decide) h
    · rw [if_neg h2]
      by_cases h3 : c = '\n'
      · rw [if_pos h3]
        exact JStrBody.esc 'n' cs (by decide) h
      · rw [if_neg h3]
        by_cases h4 : c = '\t'
        · rw [if_pos h4]
          exact JStrBody.esc 't' cs (by decide) h
        · rw [if_neg h4]
          by_cases h5 : c = '\r'
          · rw [if_pos h5]
            exact JStrBody.esc 'r' cs (by decide) h
          · rw [if_neg h5]
            by_cases h6 : c.toNat = 8
            · rw [if_pos h6]
              exact JStrBody.esc 'b' cs (by decide) h
            · rw [if_neg h6]
              by_cases h7 : c.toNat = 12
              · rw [if_pos h7]
                exact JStrBody.esc 'f' cs (by decide) h
              · rw [if_neg h7]
                by_cases h8 : c.toNat < 32
                · rw [if_pos h8]
                  exact JStrBody.uesc '0' '0' (hexDigitChar (c.toNat / 16))
                    (hexDigitChar (c.toNat % 16)) cs (by decide) (by decide)
                    (isHexChar_hexDigitChar _ (by omega))
                    (isHexChar_hexDigitChar _ (Nat.mod_lt _ (by omega))) h
                · rw [if_neg h8]
                  exact JStrBody.plain c cs (by omega) h1 h2 h

theorem jStrBody_escaped (l : List Char) : JStrBody ((l.map escChar).flatten) := by
  induction l with
  | nil => exact JStrBody.nil
  | cons c cs ih =>
    rw [List.map_cons, List.flatten_cons]
    exact jStrBody_escChar c _ ih

theorem jStr_quoteStr (s : String) : JStr (quoteStr s) :=
  JStr.mk _ (jStrBody_escaped s.toList)

theorem jStrSeq_sepJoin (l : List String) (h : l ≠ []) :
    JStrSeq (sepJoin (l.map quoteStr)) := by
  induction l with
  | nil => exact absurd rfl h
  | cons x xs ih =>
    cases xs with
    | nil => exact JStrSeq.single _ (jStr_quoteStr x)
    | cons y ys =>
      rw [List.map_cons, List.map_cons, sepJoin]
      exact JStrSeq.cons _ _ (jStr_quoteStr x) (by rw [← List.map_cons]; exact ih (by simp))

theorem jPairSeq_sepJoin (l : List (String × String)) (h : l ≠ []) :
    JPairSeq (sepJoin (l.map (fun kv => quoteStr kv.1 ++ ':' :: ' ' :: quoteStr kv.2))) := by
  induction l with
  | nil => exact absurd rfl h
  | cons x xs ih =>
    cases xs with
    | nil =>
      exact JPairSeq.single _ _ (jStr_quoteStr x.1) (jStr_quoteStr x.2)
    | cons y ys =>
      rw [List.map_cons, List.map_cons, sepJoin]
      rw [List.append_assoc]
      exact JPairSeq.cons _ _ _ (jStr_quoteStr x.1) (jStr_quoteStr x.2)
        (by simpa using ih (by simp))

theorem jsonTop_dumpArr (l : List String) : JsonTop (dumpArr l).toList := by
  cases l with
  | nil => exact JsonTop.emptyArr
  | cons x xs =>
    show JsonTop ('[' :: (sepJoin ((x :: xs).map quoteStr) ++ [']']))
    exact JsonTop.arr _ (jStrSeq_sepJoin (x :: xs) (by simp))

theorem jsonTop_dumpObj (l : List (String × String)) : JsonTop (dumpObj l).toList := by
  cases l with
  | nil => exact JsonTop.emptyObj
  | cons x xs =>
    show JsonTop ('\x7b' ::
      (sepJoin ((x :: xs).map (fun kv => quoteStr kv.1 ++ ':' :: ' ' :: quoteStr kv.2)) ++
        ['\x7d']))
    exact JsonTop.obj _ (jPairSeq_sepJoin (x :: xs) (by simp))

/-! The per-hotel record pipeline: `scrape_hotel_detail` (lines 330-409),
`_open_amenities_page_and_scrape` (lines 501-559),
`_open_pet_policy_if_available` (lines 669-714), `_infer_pet_friendly`
(lines 716-738) and the per-card body of `scrape_city` (lines 244-323).
Every DOM probe is an external collaborator input; the record bookkeeping is
embedded faithfully. -/

/-- In-memory value of a `*_json` record field before normalization: null,
an already-serialized string, a list of strings, or a string-keyed dict
(the only shapes the pipeline produces). -/
inductive JVal where
  | jnull
  | jstr (s : String)
  | jarr (l : List String)
  | jobj (l : List (String × String))
deriving DecidableEq

/-- The normalization loop of `scrape_city` (lines 310-313): `None` and
strings pass through, any nested structure is `json.dumps`-serialized. -/
def normalizeJson : JVal → Option String
  | JVal.jnull => Option.none
  | JVal.jstr s => some s
  | JVal.jarr l => some (dumpArr l)
  | JVal.jobj l => some (dumpObj l)

/-- In-memory value of `is_pet_friendly` before coercion: null, a Python
bool, or a string. -/
inductive PetVal where
  | null
  | pbool (b : Bool)
  | pstr (s : String)
deriving DecidableEq

/-- The coercion of lines 315-317 followed by persistence as an optional
string: a bool becomes the literal "true"/"false", anything else passes
through (null as null). -/
def coercePet : PetVal → Option String
  | PetVal.null => Option.none
  | PetVal.pbool b => some (if b then "true" else "false")
  | PetVal.pstr s => some s

/-- The `out` dict of `scrape_hotel_detail` (lines 331-341).  The `*_json`
fields hold the in-memory shapes that function produces: `None`, a list of
strings, or a string-keyed dict — never a pre-serialized string. -/
structure DetailOut where
  phone : Option String
  description : Option String
  overview_table_json : Option (List (String × String))
  pets_json : Option (List (String × String))
  parking_json : Option (List (String × String))
  amenities_json : Option (List String)
  nearby_json : Option (List String)
  airport_json : Option (List String)
  is_pet_friendly : PetVal
deriving DecidableEq

/-- The all-null `out` dict (also the navigation-failure result). -/
def emptyDetail : DetailOut :=
  ⟨Option.none, Option.none, Option.none, Option.none, Option.none, Option.none,
    Option.none, Option.none, PetVal.null⟩

/-- Sub-probe results on the amenities page (browser collaborator inputs).
Each `_scrape_*_from_page` helper returns `None` or non-empty data by
construction; `parkingText` is the `_collect_section_text` result for the
parking keywords. -/
structure AmenProbes where
  amenities : Option (List String)
  parkingText : Option String
  overview : Option (List (String × String))
  nearby : Option (List String)
  airport : Option (List String)
  phone : Option String
deriving DecidableEq

/-- `_scrape_parking_from_page` (lines 582-588): wrap the section text as
`{"parking_info": text}`, else `None`. -/
def scrape_parking_from_page (sectionText : Option String) : Option (List (String × String)) :=
  sectionText.map (fun t => [("parking_info", t)])

/-- The `data` dict built on the amenities page (lines 534-541). -/
structure AmenData where
  amenities : Option (List String)
  parking : Option (List (String × String))
  overview : Option (List (String × String))
  nearby : Option (List String)
  airport : Option (List String)
  phone : Option String
deriving DecidableEq

/-- `_open_amenities_page_and_scrape` (lines 501-559), parameterized by the
"View all amenities" link (`None` = no button; `some href` = button with
that href attribute) and the sub-probe results.  Returns `None` when the
button or its href is missing/empty, or when all five content probes
(amenities, parking, overview, nearby, airport — the `any([...])` of line
548, which does not include the phone probe) are null. -/
def open_amenities_page_and_scrape (link : Option (Option String)) (p : AmenProbes) :
    Option AmenData :=
  match link with
  | Option.none => Option.none
  | some href =>
    if href.getD "" = "" then Option.none
    else
      let data : AmenData :=
        ⟨p.amenities, scrape_parking_from_page p.parkingText, p.overview,
          p.nearby, p.airport, p.phone⟩
      if data.amenities.isNone ∧ data.parking.isNone ∧ data.overview.isNone ∧
          data.nearby.isNone ∧ data.airport.isNone then Option.none
      else some data

/-- `_open_pet_policy_if_available` (lines 669-714), parameterized by the
pet-policy link and the scraped policy section text: returns
`{"policy": text}` when a link with an href and some policy text exist. -/
def open_pet_policy (link : Option (Option String)) (policyText : Option String) :
    Option (List (String × String)) :=
  match link with
  | Option.none => Option.none
  | some href =>
    if href.getD "" = "" then Option.none
    else policyText.map (fun t => [("policy", t)])

/-- Python `" ".join(l)`. -/
def joinSpaceChars : List String → List Char
  | [] => []
  | [x] => x.toList
  | x :: y :: xs => x.toList ++ ' ' :: joinSpaceChars (y :: xs)

/-- Python `" ".join(l)` as a string. -/
def joinSpace (l : List String) : String := String.mk (joinSpaceChars l)

/-- `_infer_pet_friendly(out)` (lines 716-738): pets data, then description
keywords, then amenity-list keywords.  At its call site `out["amenities_json"]`
is `None` or a list of strings (see `DetailOut`), so the source's
`isinstance(ams, str)`/`json.loads` branch is unreachable and has no
counterpart here. -/
def infer_pet_friendly (out : DetailOut) : Bool :=
  if out.pets_json.isSome then true
  else
    let desc := strLower (out.description.getD "")
    if strContains desc "pet-friendly" || strContains desc "pets allowed" ||
        strContains desc "pet friendly" || strContains desc "pet-friendly hotel" ||
        strContains desc "pet policy" then true
    else
      match out.amenities_json with
      | some ams =>
        let hay := strLower (joinSpace ams)
        strContains hay "pet" || strContains hay "pets allowed" ||
          strContains hay "pet-friendly"
      | Option.none => false

/-- Browser probe results for one detail page: navigation success, the
description text, the highlights list (non-empty or `None`), the phone
found on the page (`_extract_phone` result, non-empty or `None`), the
"View all amenities" link with its sub-probe results, and the pet-policy
link with its section text. -/
structure DetailProbes where
  navOk : Bool
  description : Option String
  highlights : Option (List String)
  phone : Option String
  amenLink : Option (Option String)
  amenProbes : AmenProbes
  petLink : Option (Option String)
  petText : Option String
deriving DecidableEq

/-- Line 361: `out["description"] = self._extract_description_text()`. -/
def applyDescription (p : DetailProbes) (d : DetailOut) : DetailOut :=
  { d with description := p.description }

/-- Lines 364-367: store the highlights as `amenities_json` when found. -/
def applyHighlights (p : DetailProbes) (d : DetailOut) : DetailOut :=
  match p.highlights with
  | some h => { d with amenities_json := some h }
  | Option.none => d

/-- Lines 370-372: store the page phone when found. -/
def applyPagePhone (p : DetailProbes) (d : DetailOut) : DetailOut :=
  match p.phone with
  | some ph => { d with phone := some ph }
  | Option.none => d

/-- Lines 377-390: merge the amenities-page data into the structured fields;
the phone only fills a still-empty slot. -/
def applyAmenData (ad : AmenData) (d : DetailOut) : DetailOut :=
  let a := match ad.amenities with
    | some x => { d with amenities_json := some x }
    | Option.none => d
  let b := match ad.parking with
    | some x => { a with parking_json := some x }
    | Option.none => a
  let c := match ad.overview with
    | some x => { b with overview_table_json := some x }
    | Option.none => b
  let e := match ad.nearby with
    | some x => { c with nearby_json := some x }
    | Option.none => c
  let f := match ad.airport with
    | some x => { e with airport_json := some x }
    | Option.none => e
  match ad.phone with
  | some ph => if f.phone = Option.none then { f with phone := some ph } else f
  | Option.none => f

/-- Lines 375-390: run the amenities page scrape and merge its result. -/
def applyAmenPage (p : DetailProbes) (d : DetailOut) : DetailOut :=
  match open_amenities_page_and_scrape p.amenLink p.amenProbes with
  | some ad => applyAmenData ad d
  | Option.none => d

/-- Lines 393-399: pet policy found sets `pets_json` and the flag to `True`;
otherwise the flag is inferred from the data collected so far. -/
def applyPetPolicy (p : DetailProbes) (d : DetailOut) : DetailOut :=
  match open_pet_policy p.petLink p.petText with
  | some pol => { d with pets_json := some pol, is_pet_friendly := PetVal.pbool true }
  | Option.none => { d with is_pet_friendly := PetVal.pbool (infer_pet_friendly d) }

/-- `scrape_hotel_detail(url)` (lines 330-409): an empty url or a failed
navigation yields the all-null dict; otherwise the probes are applied in
source order. -/
def scrape_hotel_detail (url : String) (p : DetailProbes) : DetailOut :=
  if url = "" then emptyDetail
  else if p.navOk = false then emptyDetail
  else
    applyPetPolicy p
      (applyAmenPage p (applyPagePhone p (applyHighlights p (applyDescription p emptyDetail))))

/-- Card-level extraction results for one hotel card (lines 244-282):
each is best-effort (`None` when the element is absent). -/
structure CardData where
  hotel_name : Option String
  hotel_url : Option String
  address : Option String
  card_amenities : List String
  price_value : Option String
  currency : Option String
  rating : Option String
deriving DecidableEq

/-- The in-memory per-hotel dict of `scrape_city` before normalization
(the `hotel_record` of lines 285-303, helper keys omitted — they are popped
before the record is appended). -/
structure MemRecord where
  hotel_code : Option String
  hotel_name : Option String
  address : Option String
  phone : Option String
  rating : Option String
  description : Option String
  card_price : Option String
  overview_table_json : JVal
  pets_json : JVal
  parking_json : JVal
  amenities_json : JVal
  nearby_json : JVal
  airport_json : JVal
  is_pet_friendly : PetVal
  last_updated : String
deriving DecidableEq

/-- The base record built from the card (lines 285-303).  `hotel_url` is
`name_el.get_attribute("href") or ""`; `card_price` is
`f"{price_value} {currency}".strip()` when a price exists (`None` currency
prints as the literal `None`); card amenities are stored pre-serialized
(`json.dumps(card_amenities)`) when non-empty. -/
def baseRecord (now : String) (c : CardData) : MemRecord :=
  { hotel_code := get_hotel_code_from_url (some (c.hotel_url.getD ""))
    hotel_name := c.hotel_name
    address := c.address
    phone := Option.none
    rating := c.rating
    description := Option.none
    card_price :=
      match c.price_value with
      | some pv => some (strTrim (pv ++ " " ++ c.currency.getD "None"))
      | Option.none => Option.none
    overview_table_json := JVal.jnull
    pets_json := JVal.jnull
    parking_json := JVal.jnull
    amenities_json :=
      if c.card_amenities.isEmpty then JVal.jnull else JVal.jstr (dumpArr c.card_amenities)
    nearby_json := JVal.jnull
    airport_json := JVal.jnull
    is_pet_friendly := PetVal.null
    last_updated := now }

/-- Lift a detail-dict object field into the in-memory union type. -/
def jvalOfObj : Option (List (String × String)) → JVal
  | some l => JVal.jobj l
  | Option.none => JVal.jnull

/-- Lift a detail-dict list field into the in-memory union type. -/
def jvalOfArr : Option (List String) → JVal
  | some l => JVal.jarr l
  | Option.none => JVal.jnull

/-- `hotel_record.update(detail)` (line 307): every key of the detail dict —
it always carries all nine of its keys — replaces the base value, even when
the detail value is `None`. -/
def updateWithDetail (r : MemRecord) (d : DetailOut) : MemRecord :=
  { r with
    phone := d.phone
    description := d.description
    overview_table_json := jvalOfObj d.overview_table_json
    pets_json := jvalOfObj d.pets_json
    parking_json := jvalOfObj d.parking_json
    amenities_json := jvalOfArr d.amenities_json
    nearby_json := jvalOfArr d.nearby_json
    airport_json := jvalOfArr d.airport_json
    is_pet_friendly := d.is_pet_friendly }

/-- Lines 309-321: serialize the `*_json` fields, coerce the pet flag, and
drop the helper keys, producing the persisted record. -/
def normalizeRecord (r : MemRecord) : HotelRecord :=
  { hotel_code := r.hotel_code
    hotel_name := r.hotel_name
    address := r.address
    phone := r.phone
    rating := r.rating
    description := r.description
    card_price := r.card_price
    overview_table_json := normalizeJson r.overview_table_json
    pets_json := normalizeJson r.pets_json
    parking_json := normalizeJson r.parking_json
    amenities_json := normalizeJson r.amenities_json
    nearby_json := normalizeJson r.nearby_json
    airport_json := normalizeJson r.airport_json
    is_pet_friendly := coercePet r.is_pet_friendly
    last_updated := some r.last_updated }

/-- The whole per-card pipeline of `scrape_city` (lines 284-323): build the
base record, scrape the detail page, `update`, normalize. -/
def buildRecord (now : String) (c : CardData) (p : DetailProbes) : HotelRecord :=
  normalizeRecord
    (updateWithDetail (baseRecord now c) (scrape_hotel_detail (c.hotel_url.getD "") p))

/-! Claim C6: the amenities-page aggregate. -/

/-- Probes where only the phone sub-probe produced data. -/
def phoneOnlyProbes : AmenProbes :=
  ⟨Option.none, Option.none, Option.none, Option.none, Option.none, some "555 123 4567"⟩

/-- Claim C6 counterexample: the "View all amenities" link is present and
usable, all five content probes are null, the phone probe is non-null — yet
the aggregate is null (the `any([...])` of line 548 omits the phone), so
"null only if every sub-probe (including phone) returned null" fails. -/
theorem open_amenities_counterexample :
    open_amenities_page_and_scrape (some (some "https://x/hoteldetail/amenities"))
      phoneOnlyProbes = Option.none ∧
    phoneOnlyProbes.phone = some "555 123 4567" := by
  constructor
  · decide
  · rfl

/-- Claim C6 (amended): with a usable "View all amenities" link the
aggregate is null iff all five content sub-probes (amenities, parking,
overview table, nearby, airport) are null — the phone sub-probe is carried
in the aggregate but does not by itself make it non-null; without a usable
link the aggregate is always null; a non-null aggregate carries all six
probe results verbatim. -/
theorem open_amenities_amended :
    (∀ (p : AmenProbes) (href : Option String), href.getD "" ≠ "" →
      (open_amenities_page_and_scrape (some href) p = Option.none ↔
        (p.amenities = Option.none ∧ scrape_parking_from_page p.parkingText = Option.none ∧
          p.overview = Option.none ∧ p.nearby = Option.none ∧ p.airport = Option.none))) ∧
    (∀ p : AmenProbes, open_amenities_page_and_scrape Option.none p = Option.none) ∧
    (∀ (p : AmenProbes) (href : Option String), href.getD "" = "" →
      open_amenities_page_and_scrape (some href) p = Option.none) ∧
    (∀ link (p : AmenProbes) d, open_amenities_page_and_scrape link p = some d →
      d.amenities = p.amenities ∧ d.parking = scrape_parking_from_page p.parkingText ∧
        d.overview = p.overview ∧ d.nearby = p.nearby ∧ d.airport = p.airport ∧
        d.phone = p.phone) := by
  refine ⟨?_, ?_, ?_, ?_⟩
  · intro p href h
    show (if href.getD "" = "" then Option.none else _) = Option.none ↔ _
    rw [if_neg h]
    dsimp only
    by_cases hc : p.amenities.isNone = true ∧ (scrape_parking_from_page p.parkingText).isNone = true ∧
        p.overview.isNone = true ∧ p.nearby.isNone = true ∧ p.airport.isNone = true
    · rw [if_pos hc]
      simp only [Option.isNone_iff_eq_none] at hc
      exact ⟨fun _ => hc, fun _ => rfl⟩
    · rw [if_neg hc]
      constructor
      · intro h'
        exact absurd h' (by simp)
      · intro hall
        exact absurd (by simp only [Option.isNone_iff_eq_none]; exact hall) hc
  · intro p
    rfl
  · intro p href h
    show (if href.getD "" = "" then Option.none else _) = Option.none
    rw [if_pos h]
  · intro link p d h
    cases link with
    | none => exact absurd h (by simp [open_amenities_page_and_scrape])
    | some href =>
      by_cases he : href.getD "" = ""
      · rw [show open_amenities_page_and_scrape (some href) p =
          (if href.getD "" = "" then Option.none else _) from rfl, if_pos he] at h
        exact absurd h (by simp)
      · rw [show open_amenities_page_and_scrape (some href) p =
          (if href.getD "" = "" then Option.none else _) from rfl, if_neg he] at h
        dsimp only at h
        by_cases hc : p.amenities.isNone = true ∧
            (scrape_parking_from_page p.parkingText).isNone = true ∧
            p.overview.isNone = true ∧ p.nearby.isNone = true ∧ p.airport.isNone = true
        · rw [if_pos hc] at h
          exact absurd h (by simp)
        · rw [if_neg hc] at h
          simp only [Option.some.injEq] at h
          rw [← h]
          exact ⟨rfl, rfl, rfl, rfl, rfl, rfl⟩

/-- Probes where only the amenities sub-probe produced data. -/
def amenOnlyProbes : AmenProbes :=
  ⟨some ["Pool"], Option.none, Option.none, Option.none, Option.none, Option.none⟩

/-- Witness for claim C6 (amended) at concrete probes: one non-null content
probe makes the aggregate non-null. -/
theorem open_amenities_amended_witness :
    open_amenities_page_and_scrape (some (some "https://x/amenities")) amenOnlyProbes ≠
      Option.none := by
  have h := open_amenities_amended.1 amenOnlyProbes (some "https://x/amenities") (by decide)
  intro hn
  exact absurd (h.mp hn).1 (by decide)

/-! Claim C4: JSON validity of the persisted substructure fields. -/

theorem jsonFieldOk_obj (o : Option (List (String × String))) :
    jsonFieldOk (normalizeJson (jvalOfObj o)) := by
  cases o with
  | none => trivial
  | some l => exact jsonTop_dumpObj l

theorem jsonFieldOk_arr (o : Option (List String)) :
    jsonFieldOk (normalizeJson (jvalOfArr o)) := by
  cases o with
  | none => trivial
  | some l => exact jsonTop_dumpArr l

/-- Claim C4: for every record the pipeline persists, each JSON-substructure
field is either null or a string that is a valid JSON text — whatever mix of
nested structures and pre-serialized strings the extraction produced in
memory (after `update` the six fields are null or nested, and normalization
`json.dumps`-serializes exactly the nested ones). -/
theorem json_fields_valid (now : String) (c : CardData) (p : DetailProbes) :
    jsonFieldOk (buildRecord now c p).overview_table_json ∧
    jsonFieldOk (buildRecord now c p).pets_json ∧
    jsonFieldOk (buildRecord now c p).parking_json ∧
    jsonFieldOk (buildRecord now c p).amenities_json ∧
    jsonFieldOk (buildRecord now c p).nearby_json ∧
    jsonFieldOk (buildRecord now c p).airport_json :=
  ⟨jsonFieldOk_obj _, jsonFieldOk_obj _, jsonFieldOk_obj _, jsonFieldOk_arr _,
    jsonFieldOk_arr _, jsonFieldOk_arr _⟩

/-! Claim C2: survival of card-level fields when the detail page fails. -/

/-- Concrete card for the C2 scenario: the card populated name, address,
rating, price, currency and two amenities. -/
def cardX : CardData :=
  ⟨some "Hotel X",
    some "https://www.ihg.com/holidayinn/hotels/us/en/brooklyn/nycbs/hoteldetail",
    some "1 Main St", ["Free WiFi", "Pets Allowed"], some "120", some "USD", some "4.2"⟩

/-- Probes for a detail page whose navigation fails. -/
def navFailProbes : DetailProbes :=
  ⟨false, Option.none, Option.none, Option.none, Option.none,
    ⟨Option.none, Option.none, Option.none, Option.none, Option.none, Option.none⟩,
    Option.none, Option.none⟩

/-- Claim C2 (code bug, concrete evaluation): when detail navigation fails,
the card-level name/address/rating/price survive, but the card-derived
amenities do not — the base record held the serialized card amenities, and
`hotel_record.update(detail)` (line 307) overwrote `amenities_json` with the
all-null detail dict's `None`, contrary to the inline comment of line 337
("if we find a more complete list than card level") and to the spec. -/
theorem card_amenities_lost_on_nav_failure :
    (baseRecord "2026-01-01T00:00:00" cardX).amenities_json =
      JVal.jstr (dumpArr ["Free WiFi", "Pets Allowed"]) ∧
    (buildRecord "2026-01-01T00:00:00" cardX navFailProbes).hotel_name = some "Hotel X" ∧
    (buildRecord "2026-01-01T00:00:00" cardX navFailProbes).address = some "1 Main St" ∧
    (buildRecord "2026-01-01T00:00:00" cardX navFailProbes).rating = some "4.2" ∧
    (buildRecord "2026-01-01T00:00:00" cardX navFailProbes).card_price = some "120 USD" ∧
    (buildRecord "2026-01-01T00:00:00" cardX navFailProbes).amenities_json = Option.none := by
  refine ⟨rfl, rfl, rfl, rfl, ?_, rfl⟩
  decide

/-! Claim C8: the pet-friendly flag. -/

theorem applyHighlights_pets (p : DetailProbes) (d : DetailOut) :
    (applyHighlights p d).pets_json = d.pets_json := by
  unfold applyHighlights
  cases p.highlights <;> rfl

theorem applyPagePhone_pets (p : DetailProbes) (d : DetailOut) :
    (applyPagePhone p d).pets_json = d.pets_json := by
  unfold applyPagePhone
  cases p.phone <;> rfl

theorem applyAmenData_pets (ad : AmenData) (d : DetailOut) :
    (applyAmenData ad d).pets_json = d.pets_json := by
  obtain ⟨a1, a2, a3, a4, a5, a6⟩ := ad
  unfold applyAmenData
  cases a1 <;> cases a2 <;> cases a3 <;> cases a4 <;> cases a5 <;> cases a6 <;>
    first
      | rfl
      | (dsimp only; split <;> rfl)

theorem applyAmenPage_pets (p : DetailProbes) (d : DetailOut) :
    (applyAmenPage p d).pets_json = d.pets_json := by
  unfold applyAmenPage
  cases open_amenities_page_and_scrape p.amenLink p.amenProbes with
  | none => rfl
  | some ad => exact applyAmenData_pets ad d

theorem applyHighlights_description (p : DetailProbes) (d : DetailOut) :
    (applyHighlights p d).description = d.description := by
  unfold applyHighlights
  cases p.highlights <;> rfl

theorem applyPagePhone_description (p : DetailProbes) (d : DetailOut) :
    (applyPagePhone p d).description = d.description := by
  unfold applyPagePhone
  cases p.phone <;> rfl

theorem applyAmenData_description (ad : AmenData) (d : DetailOut) :
    (applyAmenData ad d).description = d.description := by
  obtain ⟨a1, a2, a3, a4, a5, a6⟩ := ad
  unfold applyAmenData
  cases a1 <;> cases a2 <;> cases a3 <;> cases a4 <;> cases a5 <;> cases a6 <;>
    first
      | rfl
      | (dsimp only; split <;> rfl)

theorem applyAmenPage_description (p : DetailProbes) (d : DetailOut) :
    (applyAmenPage p d).description = d.description := by
  unfold applyAmenPage
  cases open_amenities_page_and_scrape p.amenLink p.amenProbes with
  | none => rfl
  | some ad => exact applyAmenData_description ad d

theorem scrape_detail_success (url : String) (p : DetailProbes)
    (hurl : url ≠ "") (hnav : p.navOk = true) :
    scrape_hotel_detail url p =
      applyPetPolicy p
        (applyAmenPage p (applyPagePhone p (applyHighlights p (applyDescription p emptyDetail)))) := by
  unfold scrape_hotel_detail
  rw [if_neg hurl, if_neg (by simp [hnav])]

/-- Claim C8: (1) when no pet-policy link is present and the extracted
description contains "pet-friendly", the persisted record's
`is_pet_friendly` is the string literal "true" (via the inference path) and
`pets_json` stays null; (2) whatever the inputs, the persisted flag is null
or one of the canonical string literals "true"/"false" — never anything
else. -/
theorem pet_friendly_spec :
    (∀ now c (p : DetailProbes), c.hotel_url.getD "" ≠ "" → p.navOk = true →
      p.petLink = Option.none →
      strContains (strLower (p.description.getD "")) "pet-friendly" = true →
      (buildRecord now c p).is_pet_friendly = some "true" ∧
        (buildRecord now c p).pets_json = Option.none) ∧
    (∀ now c p, (buildRecord now c p).is_pet_friendly = Option.none ∨
      (buildRecord now c p).is_pet_friendly = some "true" ∨
      (buildRecord now c p).is_pet_friendly = some "false") := by
  constructor
  · intro now c p hurl hnav hpet hdesc
    have hdetail := scrape_detail_success (c.hotel_url.getD "") p hurl hnav
    set d0 := applyAmenPage p (applyPagePhone p (applyHighlights p (applyDescription p emptyDetail)))
      with hd0
    have hpets : d0.pets_json = Option.none := by
      rw [hd0, applyAmenPage_pets, applyPagePhone_pets, applyHighlights_pets]
      rfl
    have hdesc0 : d0.description = p.description := by
      rw [hd0, applyAmenPage_description, applyPagePhone_description, applyHighlights_description]
      rfl
    have hinfer : infer_pet_friendly d0 = true := by
      unfold infer_pet_friendly
      rw [hpets, hdesc0]
      simp [hdesc]
    have hpol : open_pet_policy p.petLink p.petText = Option.none := by
      rw [hpet]
      rfl
    have happ : applyPetPolicy p d0 = { d0 with is_pet_friendly := PetVal.pbool true } := by
      unfold applyPetPolicy
      rw [hpol]
      dsimp only
      rw [hinfer]
    constructor
    · show coercePet (scrape_hotel_detail (c.hotel_url.getD "") p).is_pet_friendly = some "true"
      rw [hdetail, happ]
      rfl
    · show normalizeJson
        (jvalOfObj (scrape_hotel_detail (c.hotel_url.getD "") p).pets_json) = Option.none
      rw [hdetail, happ]
      show normalizeJson (jvalOfObj d0.pets_json) = Option.none
      rw [hpets]
      rfl
  · intro now c p
    have hkey : (buildRecord now c p).is_pet_friendly =
        coercePet (scrape_hotel_detail (c.hotel_url.getD "") p).is_pet_friendly := rfl
    rw [hkey]
    unfold scrape_hotel_detail
    by_cases h1 : c.hotel_url.getD "" = ""
    · rw [if_pos h1]
      exact Or.inl rfl
    · rw [if_neg h1]
      by_cases h2 : p.navOk = false
      · rw [if_pos h2]
        exact Or.inl rfl
      · rw [if_neg h2]
        unfold applyPetPolicy
        cases open_pet_policy p.petLink p.petText with
        | some pol =>
          dsimp only
          exact Or.inr (Or.inl rfl)
        | none =>
          dsimp only
          cases infer_pet_friendly
              (applyAmenPage p (applyPagePhone p (applyHighlights p (applyDescription p emptyDetail)))) with
          | true => exact Or.inr (Or.inl rfl)
          | false => exact Or.inr (Or.inr rfl)

/-- Probes for a detail page with no pet-policy link whose description
mentions pet-friendliness. -/
def petInferProbes : DetailProbes :=
  ⟨true, some "A very Pet-Friendly hotel in Brooklyn.", Option.none, Option.none, Option.none,
    ⟨Option.none, Option.none, Option.none, Option.none, Option.none, Option.none⟩,
    Option.none, Option.none⟩

/-- Witness for claim C8 at concrete inputs. -/
theorem pet_friendly_spec_witness :
    (buildRecord "2026-01-01T00:00:00" cardX petInferProbes).is_pet_friendly = some "true" ∧
    (buildRecord "2026-01-01T00:00:00" cardX petInferProbes).pets_json = Option.none :=
  pet_friendly_spec.1 "2026-01-01T00:00:00" cardX petInferProbes (by decide) rfl rfl (by decide)

/-! Claim C5: persistence (`save_outputs`, lines 794-809, and the per-city
loop of `main`, lines 827-839).  File formatting (JSON pretty-printing, CSV
quoting) is the external writer; the documents are modeled by the data
written to them. -/

/-- The fixed column schema `FIELDS` (lines 42-58). -/
def FIELDS : List String :=
  ["hotel_code", "hotel_name", "address", "phone", "rating", "description", "card_price",
    "overview_table_json", "pets_json", "parking_json", "amenities_json", "nearby_json",
    "airport_json", "is_pet_friendly", "last_updated"]

/-- `r.get(k)` on a record dict for a schema column (line 808); an unknown
column yields `None`. -/
def fieldGet (r : HotelRecord) (f : String) : Option String :=
  if f = "hotel_code" then r.hotel_code
  else if f = "hotel_name" then r.hotel_name
  else if f = "address" then r.address
  else if f = "phone" then r.phone
  else if f = "rating" then r.rating
  else if f = "description" then r.description
  else if f = "card_price" then r.card_price
  else if f = "overview_table_json" then r.overview_table_json
  else if f = "pets_json" then r.pets_json
  else if f = "parking_json" then r.parking_json
  else if f = "amenities_json" then r.amenities_json
  else if f = "nearby_json" then r.nearby_json
  else if f = "airport_json" then r.airport_json
  else if f = "is_pet_friendly" then r.is_pet_friendly
  else if f = "last_updated" then r.last_updated
  else Option.none

/-- The two output documents: the JSON document's record array and the CSV
document's header row and data rows (`None` = file never written). -/
structure FileState where
  jsonDoc : Option (List HotelRecord)
  csvDoc : Option (List String × List (List (Option String)))
deriving DecidableEq

/-- `save_outputs(records)` (lines 794-809): an empty record list returns
immediately, leaving both files untouched; otherwise both documents are
rewritten in full — the whole record list to JSON, and a header plus one
fixed-column row per record to CSV. -/
def save_outputs (records : List HotelRecord) (fs : FileState) : FileState :=
  if records.isEmpty then fs
  else
    ⟨some records, some (FIELDS, records.map (fun r => FIELDS.map (fieldGet r)))⟩

/-- One iteration of the per-city loop of `main` (lines 828-839): merge the
city's hotels into the accumulated set (re-indexed by identity key) and save.
The state is the accumulated record list and the file state. -/
def processCity (st : List HotelRecord × FileState) (hotels : List HotelRecord) :
    List HotelRecord × FileState :=
  let merged := append_or_merge OVERWRITE hotels (reindexBy st.1)
  (merged, save_outputs merged st.2)

/-- A file state holding one stale record from an earlier run. -/
def staleFiles : FileState :=
  ⟨some [recA], some (FIELDS, [FIELDS.map (fieldGet recA)])⟩

/-- Claim C5 counterexample: a call of `save_outputs` with an empty record
set does not rewrite the documents — the stale contents survive — so "every
call ... rewrites both in full on every call" fails for the empty set
(reachable in `main` whenever no hotels have accumulated yet). -/
theorem save_outputs_counterexample :
    save_outputs [] staleFiles = staleFiles ∧
    staleFiles.jsonDoc ≠ some [] ∧ staleFiles.jsonDoc ≠ Option.none := by
  refine ⟨rfl, ?_, ?_⟩
  · decide
  · decide

/-- Claim C5 (amended): every `save_outputs` call with a non-empty record
set writes the full value set, in order, to both the JSON document (the
record list) and the fixed-column CSV document (header plus one row per
record), with a result independent of the previous file state (a rewrite,
not an append); a call with an empty set leaves both files untouched; and
the per-city loop persists the freshly merged full set on every city. -/
theorem save_outputs_amended :
    (∀ records fs, records ≠ [] →
      save_outputs records fs =
        ⟨some records, some (FIELDS, records.map (fun r => FIELDS.map (fieldGet r)))⟩) ∧
    (∀ records fs fs', records ≠ [] → save_outputs records fs = save_outputs records fs') ∧
    (∀ fs, save_outputs [] fs = fs) ∧
    (∀ st hotels,
      (processCity st hotels).1 = append_or_merge OVERWRITE hotels (reindexBy st.1) ∧
      (processCity st hotels).2 =
        save_outputs (append_or_merge OVERWRITE hotels (reindexBy st.1)) st.2) := by
  refine ⟨?_, ?_, ?_, ?_⟩
  · intro records fs h
    unfold save_outputs
    rw [if_neg (by simpa using h)]
  · intro records fs fs' h
    unfold save_outputs
    rw [if_neg (by simpa using h), if_neg (by simpa using h)]
  · intro fs
    rfl
  · intro st hotels
    exact ⟨rfl, rfl⟩

/-- Witness for claim C5 (amended) at a concrete record list. -/
theorem save_outputs_amended_witness :
    save_outputs [recB] staleFiles =
      ⟨some [recB], some (FIELDS, [FIELDS.map (fieldGet recB)])⟩ :=
  save_outputs_amended.1 [recB] staleFiles (by decide)

end IHG
